import Mathlib

/-!
Shallow embedding of `src/agents/lib/gh-manifest-server.py`, a one-shot
GitHub App manifest flow callback server.  The single request handler
`Handler.do_GET` is modelled as a pure function from the startup
configuration, an oracle for the outbound credential-exchange call, and the
raw request path, to a trace of observable events plus an optional uncaught
exception.  The pieces of the Python standard library the handler relies on
(`urllib.parse.urlparse`, `urllib.parse.parse_qs`, `urllib.parse.unquote_plus`,
dict subscript / `dict.get`, `json.dump(..., indent=2)`) are translated from
their documented and implemented behaviour.
-/

/-- Startup configuration of the server: `MANIFEST = sys.argv[1]`,
`ORG = sys.argv[2]`, `OUTPUT_FILE = sys.argv[3]`. -/
structure Config where
  manifest : String
  org : String
  outputFile : String

mutual
/-- Model of Python values as produced by `json.loads`: `None`, booleans,
integers, strings, lists and dicts.  (JSON floats are not needed by any
claim and are not modelled.) -/
inductive PyVal where
  | pnone : PyVal
  | pbool (b : Bool) : PyVal
  | pint (n : Int) : PyVal
  | pstr (s : String) : PyVal
  | plist (xs : PyList) : PyVal
  | pdict (es : PyFields) : PyVal

/-- A Python list of values. -/
inductive PyList where
  | nil : PyList
  | cons (v : PyVal) (rest : PyList) : PyList

/-- The entries of a Python dict, in insertion order. -/
inductive PyFields where
  | nil : PyFields
  | cons (k : String) (v : PyVal) (rest : PyFields) : PyFields
end

/-- Lookup of a key in dict entries: first matching key wins (keys of a
Python dict are unique, so this is exact). -/
def PyFields.find : PyFields → String → Option PyVal
  | PyFields.nil, _ => Option.none
  | PyFields.cons k0 v rest, k => if k0 = k then Option.some v else rest.find k

/-- The keys of dict entries, in order. -/
def PyFields.keys : PyFields → List String
  | PyFields.nil => []
  | PyFields.cons k _ rest => k :: rest.keys

/-- `d[k]`-style lookup lifted to an arbitrary value: `Option.none` when the
value is not a dict or the key is absent. -/
def pyLookup (v : PyVal) (k : String) : Option PyVal :=
  match v with
  | PyVal.pdict es => es.find k
  | _ => Option.none

/-- Python `data[k]` on a `json.loads` result: `KeyError` when the key is
missing from a dict, `TypeError` when the value is not a dict. -/
def pyGetItem (v : PyVal) (k : String) : Except String PyVal :=
  match v with
  | PyVal.pdict es =>
    match es.find k with
    | Option.some x => Except.ok x
    | Option.none => Except.error ("KeyError: " ++ k)
  | _ => Except.error ("TypeError: value is not subscriptable by " ++ k)

/-- Python `data.get(k, dflt)`: lookup with default on a dict,
`AttributeError` on any non-dict value. -/
def pyDictGet (v : PyVal) (k : String) (dflt : PyVal) : Except String PyVal :=
  match v with
  | PyVal.pdict es => Except.ok ((es.find k).getD dflt)
  | _ => Except.error ("AttributeError: value has no attribute get (key " ++ k ++ ")")

/- ## Character-list utilities (kernel-reducible counterparts of the Python
string operations used by the server and by `urllib.parse`). -/

/-- `str.replace(old, new)` for a single-character `old`: replace every
occurrence of `c` by `rep`. -/
def replaceChar (c : Char) (rep : List Char) : List Char → List Char
  | [] => []
  | x :: xs => (if x = c then rep else [x]) ++ replaceChar c rep xs

/-- `str.split(sep)` for a single-character separator, Python semantics:
`"".split(sep) = [""]`, separators at the ends produce empty fields. -/
def splitOnChar (c : Char) : List Char → List (List Char)
  | [] => [[]]
  | x :: xs =>
    let r := splitOnChar c xs
    if x = c then [] :: r
    else
      match r with
      | [] => [[x]]
      | h :: t => (x :: h) :: t

/-- `str.split(sep, 1)` for a single-character separator: the part before
the first occurrence, and (when the separator occurs) the part after it. -/
def splitFirstChar (c : Char) : List Char → List Char × Option (List Char)
  | [] => ([], Option.none)
  | x :: xs =>
    if x = c then ([], Option.some xs)
    else
      let p := splitFirstChar c xs
      (x :: p.1, p.2)

/- ## `urllib.parse.unquote_plus`

`unquote_plus` first turns every `+` into a space, then percent-decodes:
maximal runs of valid `%XX` escapes are decoded as UTF-8 byte sequences with
the `replace` error handler (one U+FFFD per maximal invalid subpart), an
invalid escape leaves the `%` as a literal character, and all other
characters pass through unchanged. -/

/-- Hexadecimal digit value of a character, if any. -/
def hexDigit (c : Char) : Option Nat :=
  if '0' ≤ c ∧ c ≤ '9' then Option.some (c.toNat - '0'.toNat)
  else if 'a' ≤ c ∧ c ≤ 'f' then Option.some (c.toNat - 'a'.toNat + 10)
  else if 'A' ≤ c ∧ c ≤ 'F' then Option.some (c.toNat - 'A'.toNat + 10)
  else Option.none

/-- Tokenize a percent-encoded character list: `Sum.inl b` is a byte coming
from a valid `%XX` escape, `Sum.inr c` a literal character (including a `%`
that does not start a valid escape). -/
def pctTokens : List Char → List (Sum Nat Char)
  | [] => []
  | '%' :: rest =>
    (match rest with
     | c1 :: c2 :: rest2 =>
       match hexDigit c1, hexDigit c2 with
       | Option.some h1, Option.some h2 => Sum.inl (h1 * 16 + h2) :: pctTokens rest2
       | _, _ => Sum.inr '%' :: pctTokens (c1 :: c2 :: rest2)
     | [c1] => Sum.inr '%' :: pctTokens [c1]
     | [] => [Sum.inr '%'])
  | x :: rest => Sum.inr x :: pctTokens rest
termination_by cs => cs.length
decreasing_by all_goals (simp [List.length]; try omega)

/-- The Unicode replacement character U+FFFD. -/
def replChar : Char := Char.ofNat 0xFFFD

/-- Is `b` a UTF-8 continuation byte in the closed range `[lo, hi]`? -/
def contIn (lo hi b : Nat) : Bool := decide (lo ≤ b) && decide (b ≤ hi)

/-- Decode the byte tokens as UTF-8 with the `replace` error handler
(maximal-subpart policy), passing literal characters through.  A literal
character terminates any pending multi-byte sequence, exactly as the
ASCII/non-ASCII run grouping of CPython `unquote` does. -/
def utf8Tokens : List (Sum Nat Char) → List Char
  | [] => []
  | Sum.inr c :: rest => c :: utf8Tokens rest
  | Sum.inl b :: rest =>
    if b < 0x80 then Char.ofNat b :: utf8Tokens rest
    else if 0xC2 ≤ b ∧ b ≤ 0xDF then
      match rest with
      | Sum.inl c1 :: rest2 =>
        if contIn 0x80 0xBF c1 then
          Char.ofNat ((b - 0xC0) * 0x40 + (c1 - 0x80)) :: utf8Tokens rest2
        else replChar :: utf8Tokens (Sum.inl c1 :: rest2)
      | other => replChar :: utf8Tokens other
    else if 0xE0 ≤ b ∧ b ≤ 0xEF then
      match rest with
      | Sum.inl c1 :: rest2 =>
        if (if b = 0xE0 then contIn 0xA0 0xBF c1
            else if b = 0xED then contIn 0x80 0x9F c1
            else contIn 0x80 0xBF c1) then
          match rest2 with
          | Sum.inl c2 :: rest3 =>
            if contIn 0x80 0xBF c2 then
              Char.ofNat ((b - 0xE0) * 0x1000 + (c1 - 0x80) * 0x40 + (c2 - 0x80)) ::
                utf8Tokens rest3
            else replChar :: utf8Tokens (Sum.inl c2 :: rest3)
          | other2 => replChar :: utf8Tokens other2
        else replChar :: utf8Tokens (Sum.inl c1 :: rest2)
      | other => replChar :: utf8Tokens other
    else if 0xF0 ≤ b ∧ b ≤ 0xF4 then
      match rest with
      | Sum.inl c1 :: rest2 =>
        if (if b = 0xF0 then contIn 0x90 0xBF c1
            else if b = 0xF4 then contIn 0x80 0x8F c1
            else contIn 0x80 0xBF c1) then
          match rest2 with
          | Sum.inl c2 :: rest3 =>
            if contIn 0x80 0xBF c2 then
              match rest3 with
              | Sum.inl c3 :: rest4 =>
                if contIn 0x80 0xBF c3 then
                  Char.ofNat ((b - 0xF0) * 0x40000 + (c1 - 0x80) * 0x1000 +
                    (c2 - 0x80) * 0x40 + (c3 - 0x80)) :: utf8Tokens rest4
                else replChar :: utf8Tokens (Sum.inl c3 :: rest4)
              | other3 => replChar :: utf8Tokens other3
            else replChar :: utf8Tokens (Sum.inl c2 :: rest3)
          | other2 => replChar :: utf8Tokens other2
        else replChar :: utf8Tokens (Sum.inl c1 :: rest2)
      | other => replChar :: utf8Tokens other
    else replChar :: utf8Tokens rest
termination_by ts => ts.length
decreasing_by all_goals (simp [List.length]; try omega)

/-- `urllib.parse.unquote` on a character list (CPython short-circuits when
no percent sign occurs). -/
def unquoteL (cs : List Char) : List Char :=
  if cs.contains '%' then utf8Tokens (pctTokens cs) else cs

/-- `urllib.parse.unquote_plus` on a character list: `+` becomes a space,
then percent-decoding. -/
def unquotePlusL (cs : List Char) : List Char :=
  unquoteL (cs.map (fun c => if c = '+' then ' ' else c))

/-- `urllib.parse.unquote_plus` on strings. -/
def unquote_plus (s : String) : String :=
  (unquotePlusL s.toList).asString

/- ## `urllib.parse.parse_qs` (default arguments: blank values dropped,
separator `&`, values percent-decoded). -/

/-- Split one `name=value` chunk of a query string: `Option.none` for the
empty chunk, otherwise the raw name together with the raw value when an
equals sign is present. -/
def chunkSplit (nv : List Char) : Option (List Char × Option (List Char)) :=
  match nv with
  | [] => Option.none
  | _ => Option.some (splitFirstChar '=' nv)

/-- One chunk of a query string as a decoded `(name, value)` pair, following
CPython `parse_qsl` with `keep_blank_values=False`: chunks without `=` and
chunks with an empty raw value are dropped, names and values are decoded
with `unquote_plus`. -/
def chunkPair (nv : List Char) : Option (String × String) :=
  match chunkSplit nv with
  | Option.none => Option.none
  | Option.some (_, Option.none) => Option.none
  | Option.some (n, Option.some v) =>
    if v = [] then Option.none
    else Option.some ((unquotePlusL n).asString, (unquotePlusL v).asString)

/-- `urllib.parse.parse_qsl(qs)`: the decoded pairs, in query-string order. -/
def parse_qsl (qs : String) : List (String × String) :=
  (splitOnChar '&' qs.toList).filterMap chunkPair

/-- Association-list lookup with `=` (first matching key wins; used both for
the parsed-query dict and anywhere the model needs a dict lookup). -/
def alookup {α : Type} : List (String × α) → String → Option α
  | [], _ => Option.none
  | (k0, v) :: rest, k => if k0 = k then Option.some v else alookup rest k

/-- Insert one `(name, value)` pair into the aggregated query dict: append
the value to the existing entry, or append a new singleton entry at the
end (CPython builds the `parse_qs` dict exactly this way). -/
def insertParam : List (String × List String) → String → String → List (String × List String)
  | [], k, v => [(k, [v])]
  | (k0, vs) :: rest, k, v =>
    if k0 = k then (k0, vs ++ [v]) :: rest
    else (k0, vs) :: insertParam rest k v

/-- Aggregate the decoded pairs into the `parse_qs` dict. -/
def parse_qs_aux : List (String × String) → List (String × List String) → List (String × List String)
  | [], acc => acc
  | (n, v) :: rest, acc => parse_qs_aux rest (insertParam acc n v)

/-- `urllib.parse.parse_qs(qs)`: an insertion-ordered dict from names to the
lists of their values. -/
def parse_qs (qs : String) : List (String × List String) :=
  parse_qs_aux (parse_qsl qs) []

/- ## `urllib.parse.urlparse`

Faithful to CPython `urlsplit`/`urlparse` for request targets: WHATWG
C0-control-and-space stripping, removal of tab/CR/LF, scheme detection,
`//`-netloc extraction, then fragment, query and `;parameters` splitting.
(The netloc validity checks of CPython — the NFKC check and the IPv6
bracket check, which can only raise for exotic netlocs — are not modelled;
the handler only ever compares the resulting path.) -/

/-- Result of `urllib.parse.urlparse`. -/
structure UrlParseResult where
  scheme : String
  netloc : String
  path : String
  params : String
  query : String
  fragment : String
deriving Repr, DecidableEq

/-- A character allowed in a URL scheme after the leading letter. -/
def schemeChar (c : Char) : Bool :=
  c.isAlpha || c.isDigit || c = '+' || c = '-' || c = '.'

/-- WHATWG strip as CPython applies it: only leading C0 controls and spaces
are removed (trailing ones are deliberately preserved by `urlsplit`). -/
def stripControlAndSpace (cs : List Char) : List Char :=
  cs.dropWhile (fun c => c ≤ ' ')

/-- Remove the unsafe bytes tab, CR and LF anywhere in the URL. -/
def removeUnsafeBytes (cs : List Char) : List Char :=
  cs.filter (fun c => !(c = '\t' || c = '\r' || c = '\n'))

/-- Index of the last occurrence of `c`, if any. -/
def rfindIdx (c : Char) (cs : List Char) : Option Nat :=
  (cs.reverse.findIdx? (fun x => x = c)).map (fun j => cs.length - 1 - j)

/-- Index of the first occurrence of `c` at or after position `start`. -/
def findIdxFrom (c : Char) (start : Nat) (cs : List Char) : Option Nat :=
  ((cs.drop start).findIdx? (fun x => x = c)).map (fun j => j + start)

/-- CPython `_splitparams`: split `;parameters` off the last path segment. -/
def splitPyParams (cs : List Char) : List Char × List Char :=
  if cs.contains ';' then
    if cs.contains '/' then
      match rfindIdx '/' cs with
      | Option.some slashIdx =>
        match findIdxFrom ';' slashIdx cs with
        | Option.some i => (cs.take i, cs.drop (i + 1))
        | Option.none => (cs, [])
      | Option.none => (cs, [])
    else
      match cs.findIdx? (fun x => x = ';') with
      | Option.some i => (cs.take i, cs.drop (i + 1))
      | Option.none => (cs, [])
  else (cs, [])

/-- `urllib.parse.urlparse` on the raw request target. -/
def pyUrlparse (url : String) : UrlParseResult :=
  let cs0 := removeUnsafeBytes (stripControlAndSpace url.toList)
  -- scheme: a leading alphabetic character, then scheme characters, then `:`
  let (scheme, cs1) :=
    match cs0.findIdx? (fun x => x = ':') with
    | Option.some i =>
      if decide (0 < i) && ((cs0.head?.map Char.isAlpha).getD false) &&
          (cs0.take i).all schemeChar then
        ((cs0.take i).map Char.toLower, cs0.drop (i + 1))
      else ([], cs0)
    | Option.none => ([], cs0)
  -- netloc: present only after a leading `//`
  let (netloc, cs2) :=
    match cs1 with
    | '/' :: '/' :: tail =>
      (tail.takeWhile (fun c => !(c = '/' || c = '?' || c = '#')),
       tail.dropWhile (fun c => !(c = '/' || c = '?' || c = '#')))
    | _ => ([], cs1)
  -- fragment: everything after the first `#`
  let (cs3, fragment) :=
    match splitFirstChar '#' cs2 with
    | (before, Option.some after) => (before, after)
    | (before, Option.none) => (before, [])
  -- query: everything after the first `?`
  let (cs4, query) :=
    match splitFirstChar '?' cs3 with
    | (before, Option.some after) => (before, after)
    | (before, Option.none) => (before, [])
  -- parameters of the last path segment (only for schemes in `uses_params`,
  -- which includes the empty scheme of an origin-form request target)
  let (path, pathParams) :=
    if scheme.asString ∈ ["", "ftp", "hdl", "prospero", "http", "imap", "https",
        "shttp", "rtsp", "rtsps", "rtspu", "sip", "sips", "mms", "sftp", "tel"] then
      splitPyParams cs4
    else (cs4, [])
  { scheme := scheme.asString
  , netloc := netloc.asString
  , path := path.asString
  , params := pathParams.asString
  , query := query.asString
  , fragment := fragment.asString }

/- ## `json.dump(result, f, indent=2)` -/

/-- Four lowercase hexadecimal digits, as in the `\uXXXX` escapes written by
`json.dump` with its default `ensure_ascii=True`. -/
def hex4 (n : Nat) : String :=
  let digit := fun (d : Nat) =>
    if d < 10 then Char.ofNat ('0'.toNat + d) else Char.ofNat ('a'.toNat + (d - 10))
  [digit (n / 0x1000 % 16), digit (n / 0x100 % 16), digit (n / 0x10 % 16),
   digit (n % 16)].asString

/-- JSON escape of one character, `ensure_ascii=True` semantics: the two-byte
shortcuts, printable ASCII verbatim, everything else as `\uXXXX` (with a
surrogate pair above U+FFFF). -/
def jsonEscapeChar (c : Char) : String :=
  if c = '"' then "\\\""
  else if c = '\\' then "\\\\"
  else if c = '\n' then "\\n"
  else if c = '\t' then "\\t"
  else if c = '\r' then "\\r"
  else if c.toNat = 8 then "\\b"
  else if c.toNat = 12 then "\\f"
  else if 0x20 ≤ c.toNat ∧ c.toNat ≤ 0x7e then [c].asString
  else if c.toNat ≤ 0xffff then "\\u" ++ hex4 c.toNat
  else
    "\\u" ++ hex4 (0xd800 + (c.toNat - 0x10000) / 0x400) ++
    "\\u" ++ hex4 (0xdc00 + (c.toNat - 0x10000) % 0x400)

/-- JSON serialization of a string, `json.dumps` `ensure_ascii=True`. -/
def jsonStr (s : String) : String :=
  "\"" ++ String.join (s.toList.map jsonEscapeChar) ++ "\""

/-- `level` copies of the two-space indent unit. -/
def jsonPad (level : Nat) : String :=
  String.join (List.replicate level "  ")

mutual
/-- `json.dumps(v, indent=2)` at nesting depth `level`: containers put every
item on its own line, indented by two more spaces than the container, with
`", "`-free separators `(",", ": ")` as Python defaults them under `indent`. -/
def pyJsonDump : PyVal → Nat → String
  | PyVal.pnone, _ => "null"
  | PyVal.pbool b, _ => if b then "true" else "false"
  | PyVal.pint n, _ => toString n
  | PyVal.pstr s, _ => jsonStr s
  | PyVal.plist PyList.nil, _ => "[]"
  | PyVal.plist (PyList.cons v rest), level =>
    "[\n" ++ String.intercalate ",\n" (pyJsonDumpItems (PyList.cons v rest) (level + 1)) ++
    "\n" ++ jsonPad level ++ "]"
  | PyVal.pdict PyFields.nil, _ => "\x7b\x7d"
  | PyVal.pdict (PyFields.cons k v rest), level =>
    "\x7b\n" ++
    String.intercalate ",\n" (pyJsonDumpEntries (PyFields.cons k v rest) (level + 1)) ++
    "\n" ++ jsonPad level ++ "\x7d"

/-- The serialized items of a list, each prefixed by its indentation. -/
def pyJsonDumpItems : PyList → Nat → List String
  | PyList.nil, _ => []
  | PyList.cons v rest, level =>
    (jsonPad level ++ pyJsonDump v level) :: pyJsonDumpItems rest level

/-- The serialized `"key": value` entries of a dict, each prefixed by its
indentation. -/
def pyJsonDumpEntries : PyFields → Nat → List String
  | PyFields.nil, _ => []
  | PyFields.cons k v rest, level =>
    (jsonPad level ++ jsonStr k ++ ": " ++ pyJsonDump v level) ::
      pyJsonDumpEntries rest level
end

/- ## Python `str()` of a value (used by the confirmation page f-string) -/

/-- `repr` of a Python string: quote with `'` unless the string contains `'`
but no `"`; escape the backslash, the quote character and the common control
characters. -/
def pyStrRepr (s : String) : String :=
  let q : Char := if s.toList.contains '\x27' ∧ ¬ s.toList.contains '"' then '"' else '\x27'
  let esc := fun (c : Char) =>
    if c = '\\' then "\\\\"
    else if c = q then "\\" ++ [q].asString
    else if c = '\n' then "\\n"
    else if c = '\r' then "\\r"
    else if c = '\t' then "\\t"
    else [c].asString
  [q].asString ++ String.join (s.toList.map esc) ++ [q].asString

mutual
/-- Python `str(v)` as used by f-string interpolation: strings verbatim,
`True`/`False`/`None` capitalized, containers via `repr`. -/
def pyStr : PyVal → String
  | PyVal.pnone => "None"
  | PyVal.pbool b => if b then "True" else "False"
  | PyVal.pint n => toString n
  | PyVal.pstr s => s
  | PyVal.plist xs => "[" ++ String.intercalate ", " (pyReprItems xs) ++ "]"
  | PyVal.pdict es => "\x7b" ++ String.intercalate ", " (pyReprEntries es) ++ "\x7d"

/-- `repr` of a Python value (what `str` falls back to inside containers). -/
def pyRepr : PyVal → String
  | PyVal.pnone => "None"
  | PyVal.pbool b => if b then "True" else "False"
  | PyVal.pint n => toString n
  | PyVal.pstr s => pyStrRepr s
  | PyVal.plist xs => "[" ++ String.intercalate ", " (pyReprItems xs) ++ "]"
  | PyVal.pdict es => "\x7b" ++ String.intercalate ", " (pyReprEntries es) ++ "\x7d"

/-- The `repr`s of the items of a list. -/
def pyReprItems : PyList → List String
  | PyList.nil => []
  | PyList.cons v rest => pyRepr v :: pyReprItems rest

/-- The `repr`ed entries of a dict. -/
def pyReprEntries : PyFields → List String
  | PyFields.nil => []
  | PyFields.cons k v rest => (pyStrRepr k ++ ": " ++ pyRepr v) :: pyReprEntries rest
end

/- ## The credential record and its extraction from the exchange response -/

/-- The `result` dict the handler builds from the parsed exchange response,
with fields in the insertion order of the Python dict literal. -/
structure CredResult where
  id : PyVal
  slug : PyVal
  name : PyVal
  client_id : PyVal
  client_secret : PyVal
  pem : PyVal
  webhook_secret : PyVal
  owner : PyVal
  html_url : PyVal

/-- The entries of the `result` dict, in the insertion order of the source:
id, slug, name, client_id, client_secret, pem, webhook_secret, owner,
html_url. -/
def CredResult.entries (r : CredResult) : PyFields :=
  PyFields.cons "id" r.id (PyFields.cons "slug" r.slug (PyFields.cons "name" r.name
    (PyFields.cons "client_id" r.client_id (PyFields.cons "client_secret" r.client_secret
      (PyFields.cons "pem" r.pem (PyFields.cons "webhook_secret" r.webhook_secret
        (PyFields.cons "owner" r.owner (PyFields.cons "html_url" r.html_url
          PyFields.nil))))))))

/-- Evaluation of the `result = { ... }` dict literal of the handler, in
source order; the first failing lookup aborts the whole literal exactly as
the corresponding Python expression raises. -/
def extractResult (data : PyVal) : Except String CredResult :=
  match pyGetItem data "id" with
  | Except.error e => Except.error e
  | Except.ok idV =>
  match pyDictGet data "slug" (PyVal.pstr "") with
  | Except.error e => Except.error e
  | Except.ok slugV =>
  match pyGetItem data "name" with
  | Except.error e => Except.error e
  | Except.ok nameV =>
  match pyGetItem data "client_id" with
  | Except.error e => Except.error e
  | Except.ok clientIdV =>
  match pyGetItem data "client_secret" with
  | Except.error e => Except.error e
  | Except.ok clientSecretV =>
  match pyGetItem data "pem" with
  | Except.error e => Except.error e
  | Except.ok pemV =>
  match pyDictGet data "webhook_secret" (PyVal.pstr "") with
  | Except.error e => Except.error e
  | Except.ok webhookV =>
  match pyDictGet data "owner" (PyVal.pdict PyFields.nil) with
  | Except.error e => Except.error e
  | Except.ok ownerObj =>
  match pyDictGet ownerObj "login" (PyVal.pstr "") with
  | Except.error e => Except.error e
  | Except.ok ownerV =>
  match pyDictGet data "html_url" (PyVal.pstr "") with
  | Except.error e => Except.error e
  | Except.ok htmlUrlV =>
    Except.ok
      { id := idV, slug := slugV, name := nameV, client_id := clientIdV
      , client_secret := clientSecretV, pem := pemV, webhook_secret := webhookV
      , owner := ownerV, html_url := htmlUrlV }

/- ## The outbound exchange call and the observable behaviour of a request -/

/-- The outbound `urllib.request.Request` the handler constructs. -/
structure ExchangeRequest where
  url : String
  method : String
  headers : List (String × String)
  data : String
deriving Repr, DecidableEq

/-- The exchange request for a given authorization code:
`POST https://api.github.com/app-manifests/<code>/conversions` with an
`Accept: application/vnd.github+json` header and an empty body. -/
def mkExchangeRequest (code : String) : ExchangeRequest :=
  { url := "https://api.github.com/app-manifests/" ++ code ++ "/conversions"
  , method := "POST"
  , headers := [("Accept", "application/vnd.github+json")]
  , data := "" }

/-- Outcome of `urlopen(req)` followed by `json.loads(resp.read())`, the two
operations guarded by the `try` block: `exn` when either raises (network
error or JSON parse failure, both caught by `except Exception`), `json` when
a parsed value is obtained. -/
inductive FetchResult where
  | exn (msg : String) : FetchResult
  | json (v : PyVal) : FetchResult

/-- One observable action of the handler, in execution order. -/
inductive Event where
  | sendResponse (status : Nat) : Event
  | sendHeader (key value : String) : Event
  | endHeaders : Event
  | writeBody (body : String) : Event
  | exchangeCall (req : ExchangeRequest) : Event
  | fileWrite (path content : String) : Event
  | spawnShutdownThread : Event
deriving Repr, DecidableEq

/-- The observable behaviour of one request: the events performed, plus the
uncaught exception if the handler aborted. -/
structure HandlerOutcome where
  events : List Event
  exn : Option String
deriving Repr, DecidableEq

/- ## HTML bodies -/

/-- `MANIFEST.replace("&", "&amp;").replace('"', "&quot;")`. -/
def escapeManifest (s : String) : String :=
  (replaceChar '"' "&quot;".toList (replaceChar '&' "&amp;".toList s.toList)).asString

/-- The form page up to the `action` URL prefix. -/
def rootHtmlA : String :=
  "<!DOCTYPE html>\n<html><body>\n<form id=\"f\" method=\"post\" action=\"https://github.com/"

/-- The form page between the action URL and the hidden `value` attribute. -/
def rootHtmlB : String :=
  "\">\n  <input type=\"hidden\" name=\"manifest\" "

/-- The form page after the hidden input. -/
def rootHtmlC : String :=
  "\n  <p>Redirecting to GitHub to create app...</p>\n  <noscript><button type=\"submit\">Click to continue</button></noscript>\n</form>\n<script>document.getElementById(\x27f\x27).submit()</script>\n</body></html>"

/-- The auto-submit form page served on the root path, character for
character the f-string of the source (split at the two interpolation
points). -/
def rootHtml (org manifestEscaped : String) : String :=
  rootHtmlA ++ "organizations/" ++ org ++ "/settings/apps/new" ++ rootHtmlB ++
  "value=\"" ++ manifestEscaped ++ "\">" ++ rootHtmlC

/-- The confirmation page written on success, interpolating
`result['name']`, `result['id']` and `result['slug']`. -/
def successHtml (r : CredResult) : String :=
  "<!DOCTYPE html>\n<html><body>\n<h2>GitHub App created successfully</h2>\n<p><strong>Name:</strong> " ++
  pyStr r.name ++
  "</p>\n<p><strong>App ID:</strong> " ++
  pyStr r.id ++
  "</p>\n<p><strong>Slug:</strong> " ++
  pyStr r.slug ++
  "</p>\n<p>You can close this tab and return to the terminal.</p>\n</body></html>"

/- ## The request handler -/

/-- The `400 No code received` outcome of a callback without a usable code. -/
def callbackNoCode : HandlerOutcome :=
  { events := [Event.sendResponse 400, Event.endHeaders, Event.writeBody "No code received"]
  , exn := Option.none }

/-- The `try`-protected exchange and everything after it, for a truthy code:
on a raised exchange or parse error the `500` response, on a parsed response
the field extraction (whose failure is an uncaught exception), the file
write, the confirmation page, and the shutdown thread. -/
def doExchange (cfg : Config) (world : ExchangeRequest → FetchResult) (code : String) :
    HandlerOutcome :=
  let req := mkExchangeRequest code
  match world req with
  | FetchResult.exn e =>
    { events := [Event.exchangeCall req, Event.sendResponse 500, Event.endHeaders,
                 Event.writeBody ("Error exchanging code: " ++ e)]
    , exn := Option.none }
  | FetchResult.json data =>
    match extractResult data with
    | Except.error e => { events := [Event.exchangeCall req], exn := Option.some e }
    | Except.ok result =>
      { events := [Event.exchangeCall req,
                   Event.fileWrite cfg.outputFile (pyJsonDump (PyVal.pdict result.entries) 0),
                   Event.sendResponse 200, Event.sendHeader "Content-Type" "text/html",
                   Event.endHeaders, Event.writeBody (successHtml result),
                   Event.spawnShutdownThread]
      , exn := Option.none }

/-- The `/callback` route: `code = params.get("code", [None])[0]`, then
`if not code` (absent or empty string) the 400 response, otherwise the
exchange. -/
def handleCallback (cfg : Config) (world : ExchangeRequest → FetchResult)
    (params : List (String × List String)) : HandlerOutcome :=
  match (alookup params "code").bind List.head? with
  | Option.none => callbackNoCode
  | Option.some code =>
    if code = "" then callbackNoCode
    else doExchange cfg world code

/-- `Handler.do_GET`: parse the request target, then route on the parsed
path: the form page on `/`, the callback flow on `/callback`, and a bare 404
on everything else. -/
def do_GET (cfg : Config) (world : ExchangeRequest → FetchResult) (rawPath : String) :
    HandlerOutcome :=
  let parsed := pyUrlparse rawPath
  let params := parse_qs parsed.query
  if parsed.path = "/" then
    { events := [Event.sendResponse 200, Event.sendHeader "Content-Type" "text/html",
                 Event.endHeaders, Event.writeBody (rootHtml cfg.org (escapeManifest cfg.manifest))]
    , exn := Option.none }
  else if parsed.path = "/callback" then
    handleCallback cfg world params
  else
    { events := [Event.sendResponse 404, Event.endHeaders], exn := Option.none }

/- ## The server loop

`HTTPServer.serve_forever` handles queued requests one at a time (an
uncaught handler exception is caught by `socketserver`, which closes that
connection and keeps serving); once a handler has started the shutdown
thread, `serve_forever` returns and no further connection is accepted. -/

/-- Process a queue of incoming request targets: each is handled in turn,
and handling stops accepting further requests exactly when an outcome
spawned the shutdown thread. -/
def runServer (cfg : Config) (world : ExchangeRequest → FetchResult) :
    List String → List HandlerOutcome
  | [] => []
  | r :: rest =>
    let out := do_GET cfg world r
    if Event.spawnShutdownThread ∈ out.events then [out]
    else out :: runServer cfg world rest

/- ## Further definitions used by the statements below -/

/-- The values carried by key `k` in a pair list, in order. -/
def valuesOf (l : List (String × String)) (k : String) : List String :=
  l.filterMap (fun p => if p.1 = k then Option.some p.2 else Option.none)

/-- The concrete configuration of the specification scenario: manifest
`{"name":"x"}`, organization `acme`, output path `out.json`. -/
def wCfg : Config :=
  { manifest := "\x7b\"name\":\"x\"\x7d", org := "acme", outputFile := "out.json" }

/-- The stub exchange response of the specification scenario. -/
def wData : PyVal :=
  PyVal.pdict (PyFields.cons "id" (PyVal.pint 1) (PyFields.cons "name" (PyVal.pstr "x")
    (PyFields.cons "client_id" (PyVal.pstr "c") (PyFields.cons "client_secret" (PyVal.pstr "s")
      (PyFields.cons "pem" (PyVal.pstr "p") PyFields.nil)))))

/-- The credential record extracted from `wData`. -/
def wResult : CredResult :=
  { id := PyVal.pint 1, slug := PyVal.pstr "", name := PyVal.pstr "x"
  , client_id := PyVal.pstr "c", client_secret := PyVal.pstr "s", pem := PyVal.pstr "p"
  , webhook_secret := PyVal.pstr "", owner := PyVal.pstr "", html_url := PyVal.pstr "" }

/-- An exchange world that always answers with the stub response. -/
def worldOk : ExchangeRequest → FetchResult := fun _ => FetchResult.json wData

/-- An exchange world whose call always raises. -/
def worldErr : ExchangeRequest → FetchResult := fun _ => FetchResult.exn "boom"

/-- A parsed exchange response missing every required field but `id`. -/
def wDataMissing : PyVal :=
  PyVal.pdict (PyFields.cons "id" (PyVal.pint 1) PyFields.nil)

/- ## Event classifiers -/

/-- Is the event an outbound exchange call? -/
def isExchangeEv : Event → Bool
  | Event.exchangeCall _ => true
  | _ => false

/-- Is the event a write of the output file? -/
def isFileWriteEv : Event → Bool
  | Event.fileWrite _ _ => true
  | _ => false

/- ## Routing lemmas for `do_GET` -/

theorem do_GET_root_eq (cfg : Config) (world : ExchangeRequest → FetchResult) (raw : String)
    (h : (pyUrlparse raw).path = "/") :
    do_GET cfg world raw =
      { events := [Event.sendResponse 200, Event.sendHeader "Content-Type" "text/html",
                   Event.endHeaders,
                   Event.writeBody (rootHtml cfg.org (escapeManifest cfg.manifest))]
      , exn := Option.none } := by
  simp [do_GET, h]

theorem do_GET_callback_eq (cfg : Config) (world : ExchangeRequest → FetchResult) (raw : String)
    (h : (pyUrlparse raw).path = "/callback") :
    do_GET cfg world raw = handleCallback cfg world (parse_qs (pyUrlparse raw).query) := by
  simp [do_GET, h]

theorem do_GET_notfound_eq (cfg : Config) (world : ExchangeRequest → FetchResult) (raw : String)
    (h1 : (pyUrlparse raw).path ≠ "/") (h2 : (pyUrlparse raw).path ≠ "/callback") :
    do_GET cfg world raw =
      { events := [Event.sendResponse 404, Event.endHeaders], exn := Option.none } := by
  simp [do_GET, h1, h2]

/- ## Lookup lemmas for the parsed query dict -/

theorem alookup_insertParam_self (acc : List (String × List String)) (k : String) (v : String) :
    alookup (insertParam acc k v) k = Option.some ((alookup acc k).getD [] ++ [v]) := by
  induction acc with
  | nil => simp [insertParam, alookup]
  | cons hd tl ih =>
    obtain ⟨k0, vs⟩ := hd
    by_cases hk : k0 = k <;> simp [insertParam, alookup, hk, ih]

theorem alookup_insertParam_ne (acc : List (String × List String)) (n k : String) (v : String)
    (h : n ≠ k) : alookup (insertParam acc n v) k = alookup acc k := by
  induction acc with
  | nil => simp [insertParam, alookup, h]
  | cons hd tl ih =>
    obtain ⟨k0, vs⟩ := hd
    by_cases hk0 : k0 = n
    · subst hk0; simp [insertParam, alookup, h]
    · by_cases hk : k0 = k
      · subst hk; simp [insertParam, alookup, hk0]
      · simp [insertParam, alookup, hk0, hk, ih]

theorem parse_qs_aux_some (l : List (String × String)) (acc : List (String × List String))
    (k : String) (vs : List String) (h : alookup acc k = Option.some vs) :
    alookup (parse_qs_aux l acc) k = Option.some (vs ++ valuesOf l k) := by
  induction l generalizing acc vs with
  | nil => simpa [parse_qs_aux, valuesOf] using h
  | cons p rest ih =>
    obtain ⟨n, v⟩ := p
    by_cases hk : n = k
    · subst hk
      have h2 : alookup (insertParam acc n v) n = Option.some (vs ++ [v]) := by
        rw [alookup_insertParam_self, h]; rfl
      have h3 := ih (insertParam acc n v) (vs ++ [v]) h2
      simpa [parse_qs_aux, valuesOf, List.append_assoc] using h3
    · have h2 : alookup (insertParam acc n v) k = Option.some vs := by
        rw [alookup_insertParam_ne acc n k v hk, h]
      simpa [parse_qs_aux, valuesOf, hk] using ih (insertParam acc n v) vs h2

theorem parse_qs_aux_none (l : List (String × String)) (acc : List (String × List String))
    (k : String) (h : alookup acc k = Option.none) :
    alookup (parse_qs_aux l acc) k =
      (match valuesOf l k with
       | [] => Option.none
       | v :: vs => Option.some (v :: vs)) := by
  induction l generalizing acc with
  | nil => simpa [parse_qs_aux, valuesOf] using h
  | cons p rest ih =>
    obtain ⟨n, v⟩ := p
    by_cases hk : n = k
    · subst hk
      have h2 : alookup (insertParam acc n v) n = Option.some [v] := by
        rw [alookup_insertParam_self, h]; rfl
      have h3 := parse_qs_aux_some rest (insertParam acc n v) n [v] h2
      simpa [parse_qs_aux, valuesOf] using h3
    · have h2 : alookup (insertParam acc n v) k = Option.none := by
        rw [alookup_insertParam_ne acc n k v hk, h]
      simpa [parse_qs_aux, valuesOf, hk] using ih (insertParam acc n v) h2

theorem parse_qs_alookup (qs : String) (k : String) :
    alookup (parse_qs qs) k =
      (match valuesOf (parse_qsl qs) k with
       | [] => Option.none
       | v :: vs => Option.some (v :: vs)) :=
  parse_qs_aux_none (parse_qsl qs) [] k rfl

theorem parse_qs_alookup_none (qs : String) (k : String)
    (h : ∀ p ∈ parse_qsl qs, p.1 ≠ k) : alookup (parse_qs qs) k = Option.none := by
  have hv : valuesOf (parse_qsl qs) k = [] := by
    simp only [valuesOf, List.filterMap_eq_nil_iff]
    intro p hp
    simp [h p hp]
  rw [parse_qs_alookup, hv]

/- ## Lemmas about the callback branch -/

theorem handleCallback_code_eq (cfg : Config) (world : ExchangeRequest → FetchResult)
    (params : List (String × List String)) (code : String)
    (h : (alookup params "code").bind List.head? = Option.some code) (hne : code ≠ "") :
    handleCallback cfg world params = doExchange cfg world code := by
  simp [handleCallback, h, hne]

theorem handleCallback_nocode_eq (cfg : Config) (world : ExchangeRequest → FetchResult)
    (params : List (String × List String))
    (h : (alookup params "code").bind List.head? = Option.none) :
    handleCallback cfg world params = callbackNoCode := by
  simp [handleCallback, h]

theorem doExchange_exchange_filter (cfg : Config) (world : ExchangeRequest → FetchResult)
    (code : String) :
    (doExchange cfg world code).events.filter isExchangeEv =
      [Event.exchangeCall (mkExchangeRequest code)] := by
  simp only [doExchange]
  split
  · rfl
  · split
    · rfl
    · rfl

/- ## Lemmas about the server loop -/

theorem runServer_cons_continue (cfg : Config) (world : ExchangeRequest → FetchResult)
    (r : String) (rest : List String)
    (h : Event.spawnShutdownThread ∉ (do_GET cfg world r).events) :
    runServer cfg world (r :: rest) = do_GET cfg world r :: runServer cfg world rest := by
  simp [runServer, h]

theorem runServer_cons_stop (cfg : Config) (world : ExchangeRequest → FetchResult)
    (r : String) (rest : List String)
    (h : Event.spawnShutdownThread ∈ (do_GET cfg world r).events) :
    runServer cfg world (r :: rest) = [do_GET cfg world r] := by
  simp [runServer, h]

/- ## Inversion lemmas for the credential extraction -/

theorem extractResult_ok_dict (data : PyVal) (r : CredResult)
    (h : extractResult data = Except.ok r) : ∃ es, data = PyVal.pdict es := by
  cases data with
  | pdict es => exact ⟨es, rfl⟩
  | pnone => simp [extractResult, pyGetItem] at h
  | pbool b => simp [extractResult, pyGetItem] at h
  | pint n => simp [extractResult, pyGetItem] at h
  | pstr s => simp [extractResult, pyGetItem] at h
  | plist xs => simp [extractResult, pyGetItem] at h

theorem extractResult_ok_fields (es : PyFields) (r : CredResult)
    (h : extractResult (PyVal.pdict es) = Except.ok r) :
    r.slug = (es.find "slug").getD (PyVal.pstr "") ∧
    r.webhook_secret = (es.find "webhook_secret").getD (PyVal.pstr "") ∧
    r.html_url = (es.find "html_url").getD (PyVal.pstr "") ∧
    (es.find "owner" = Option.none → r.owner = PyVal.pstr "") := by
  obtain ⟨rid, rslug, rname, rcid, rcs, rpem, rwh, rown, rhtml⟩ := r
  cases hid : es.find "id" with
  | none => simp [extractResult, pyGetItem, pyDictGet, hid] at h
  | some idV =>
  cases hname : es.find "name" with
  | none => simp [extractResult, pyGetItem, pyDictGet, hid, hname] at h
  | some nameV =>
  cases hcid : es.find "client_id" with
  | none => simp [extractResult, pyGetItem, pyDictGet, hid, hname, hcid] at h
  | some cidV =>
  cases hcs : es.find "client_secret" with
  | none => simp [extractResult, pyGetItem, pyDictGet, hid, hname, hcid, hcs] at h
  | some csV =>
  cases hpem : es.find "pem" with
  | none => simp [extractResult, pyGetItem, pyDictGet, hid, hname, hcid, hcs, hpem] at h
  | some pemV =>
  cases hown : es.find "owner" with
  | none =>
    simp [extractResult, pyGetItem, pyDictGet, hid, hname, hcid, hcs, hpem, hown,
      PyFields.find] at h
    obtain ⟨h1, h2, h3, h4, h5, h6, h7, h8, h9⟩ := h
    exact ⟨h2.symm, h7.symm, h9.symm, fun _ => h8.symm⟩
  | some ov =>
    cases ov with
    | pdict oes =>
      simp [extractResult, pyGetItem, pyDictGet, hid, hname, hcid, hcs, hpem, hown] at h
      obtain ⟨h1, h2, h3, h4, h5, h6, h7, h8, h9⟩ := h
      exact ⟨h2.symm, h7.symm, h9.symm, fun hc => Option.noConfusion hc⟩
    | pnone => simp [extractResult, pyGetItem, pyDictGet, hid, hname, hcid, hcs, hpem, hown] at h
    | pbool b => simp [extractResult, pyGetItem, pyDictGet, hid, hname, hcid, hcs, hpem, hown] at h
    | pint n => simp [extractResult, pyGetItem, pyDictGet, hid, hname, hcid, hcs, hpem, hown] at h
    | pstr s => simp [extractResult, pyGetItem, pyDictGet, hid, hname, hcid, hcs, hpem, hown] at h
    | plist xs => simp [extractResult, pyGetItem, pyDictGet, hid, hname, hcid, hcs, hpem, hown] at h

theorem extractResult_error_of_required_missing (data : PyVal)
    (h : pyLookup data "id" = Option.none ∨ pyLookup data "name" = Option.none ∨
         pyLookup data "client_id" = Option.none ∨
         pyLookup data "client_secret" = Option.none ∨
         pyLookup data "pem" = Option.none) :
    ∃ e, extractResult data = Except.error e := by
  cases data with
  | pnone => exact ⟨_, rfl⟩
  | pbool b => exact ⟨_, rfl⟩
  | pint n => exact ⟨_, rfl⟩
  | pstr s => exact ⟨_, rfl⟩
  | plist xs => exact ⟨_, rfl⟩
  | pdict es =>
    simp only [pyLookup] at h
    rcases h with h | h | h | h | h
    · exact ⟨"KeyError: " ++ "id", by simp [extractResult, pyGetItem, pyDictGet, h]⟩
    · cases hid : es.find "id" with
      | none => exact ⟨"KeyError: " ++ "id", by simp [extractResult, pyGetItem, pyDictGet, hid]⟩
      | some idV =>
        exact ⟨"KeyError: " ++ "name",
          by simp [extractResult, pyGetItem, pyDictGet, hid, h]⟩
    · cases hid : es.find "id" with
      | none => exact ⟨"KeyError: " ++ "id", by simp [extractResult, pyGetItem, pyDictGet, hid]⟩
      | some idV =>
        cases hname : es.find "name" with
        | none =>
          exact ⟨"KeyError: " ++ "name",
            by simp [extractResult, pyGetItem, pyDictGet, hid, hname]⟩
        | some nameV =>
          exact ⟨"KeyError: " ++ "client_id",
            by simp [extractResult, pyGetItem, pyDictGet, hid, hname, h]⟩
    · cases hid : es.find "id" with
      | none => exact ⟨"KeyError: " ++ "id", by simp [extractResult, pyGetItem, pyDictGet, hid]⟩
      | some idV =>
        cases hname : es.find "name" with
        | none =>
          exact ⟨"KeyError: " ++ "name",
            by simp [extractResult, pyGetItem, pyDictGet, hid, hname]⟩
        | some nameV =>
          cases hcid : es.find "client_id" with
          | none =>
            exact ⟨"KeyError: " ++ "client_id",
              by simp [extractResult, pyGetItem, pyDictGet, hid, hname, hcid]⟩
          | some cidV =>
            exact ⟨"KeyError: " ++ "client_secret",
              by simp [extractResult, pyGetItem, pyDictGet, hid, hname, hcid, h]⟩
    · cases hid : es.find "id" with
      | none => exact ⟨"KeyError: " ++ "id", by simp [extractResult, pyGetItem, pyDictGet, hid]⟩
      | some idV =>
        cases hname : es.find "name" with
        | none =>
          exact ⟨"KeyError: " ++ "name",
            by simp [extractResult, pyGetItem, pyDictGet, hid, hname]⟩
        | some nameV =>
          cases hcid : es.find "client_id" with
          | none =>
            exact ⟨"KeyError: " ++ "client_id",
              by simp [extractResult, pyGetItem, pyDictGet, hid, hname, hcid]⟩
          | some cidV =>
            cases hcs : es.find "client_secret" with
            | none =>
              exact ⟨"KeyError: " ++ "client_secret",
                by simp [extractResult, pyGetItem, pyDictGet, hid, hname, hcid, hcs]⟩
            | some csV =>
              exact ⟨"KeyError: " ++ "pem",
                by simp [extractResult, pyGetItem, pyDictGet, hid, hname, hcid, hcs, h]⟩

/- ## Small helper lemmas -/

theorem string_append_assoc (a b c : String) : a ++ b ++ c = a ++ (b ++ c) := by
  apply String.ext
  simp [String.data_append]

theorem chunkPair_some_inv (nv : List Char) (p : String × String)
    (h : chunkPair nv = Option.some p) :
    ∃ n v, chunkSplit nv = Option.some (n, Option.some v) ∧ v ≠ [] ∧
      p.1 = (unquotePlusL n).asString ∧ p.2 = (unquotePlusL v).asString := by
  unfold chunkPair at h
  cases hs : chunkSplit nv with
  | none => rw [hs] at h; cases h
  | some q =>
    obtain ⟨n, vo⟩ := q
    cases vo with
    | none => rw [hs] at h; cases h
    | some v =>
      rw [hs] at h
      by_cases hv : v = []
      · simp [hv] at h
      · simp only [hv, if_false] at h
        cases h
        exact ⟨n, v, rfl, hv, rfl, rfl⟩

theorem parse_qsl_no_code_of_blank (qs : String)
    (hall : ∀ nv ∈ splitOnChar '&' qs.toList, ∀ n v, chunkSplit nv = Option.some (n, v) →
      (unquotePlusL n).asString = "code" → v = Option.none ∨ v = Option.some []) :
    ∀ p ∈ parse_qsl qs, p.1 ≠ "code" := by
  intro p hp hcontra
  rw [parse_qsl, List.mem_filterMap] at hp
  obtain ⟨nv, hnv, hcp⟩ := hp
  obtain ⟨n, v, hs, hvne, hp1, _⟩ := chunkPair_some_inv nv p hcp
  have := hall nv hnv n (Option.some v) hs (by rw [← hp1, hcontra])
  rcases this with h | h
  · cases h
  · exact hvne (Option.some.injEq _ _ ▸ h)

/- ## Claim theorems -/

/-- C1: for every callback request whose code parameter is present (and
truthy), whose exchange call returns a parseable JSON response, and whose
field extraction succeeds, exactly one file-write event occurs, at the
configured output path, containing the nine-field credential record
serialized by the 2-space-indent JSON serializer, with the nine documented
keys in order and each optional field equal to the empty string whenever
the provider response omits it. -/
theorem callback_success_writes_output_file (cfg : Config)
    (world : ExchangeRequest → FetchResult) (raw code : String) (data : PyVal)
    (result : CredResult)
    (hpath : (pyUrlparse raw).path = "/callback")
    (hcode : (alookup (parse_qs (pyUrlparse raw).query) "code").bind List.head? =
      Option.some code)
    (hne : code ≠ "")
    (hworld : world (mkExchangeRequest code) = FetchResult.json data)
    (hres : extractResult data = Except.ok result) :
    (do_GET cfg world raw).events.filter isFileWriteEv =
      [Event.fileWrite cfg.outputFile (pyJsonDump (PyVal.pdict result.entries) 0)] ∧
    result.entries.keys = ["id", "slug", "name", "client_id", "client_secret", "pem",
      "webhook_secret", "owner", "html_url"] ∧
    (pyLookup data "slug" = Option.none → result.slug = PyVal.pstr "") ∧
    (pyLookup data "webhook_secret" = Option.none → result.webhook_secret = PyVal.pstr "") ∧
    (pyLookup data "owner" = Option.none → result.owner = PyVal.pstr "") ∧
    (pyLookup data "html_url" = Option.none → result.html_url = PyVal.pstr "") := by
  obtain ⟨es, rfl⟩ := extractResult_ok_dict data result hres
  obtain ⟨hslug, hwh, hhtml, hown⟩ := extractResult_ok_fields es result hres
  refine ⟨?_, ?_, ?_, ?_, ?_, ?_⟩
  · rw [do_GET_callback_eq cfg world raw hpath,
      handleCallback_code_eq cfg world _ code hcode hne]
    simp [doExchange, hworld, hres, isFileWriteEv, List.filter]
  · simp [CredResult.entries, PyFields.keys]
  · intro h; simp only [pyLookup] at h; rw [hslug, h]; rfl
  · intro h; simp only [pyLookup] at h; rw [hwh, h]; rfl
  · intro h; simp only [pyLookup] at h; exact hown h
  · intro h; simp only [pyLookup] at h; rw [hhtml, h]; rfl

/-- Witness for C1 at the concrete scenario of the specification: callback
`/callback?code=abc123` against the stub response, producing exactly the
pretty-printed nine-field JSON file of the scenario. -/
theorem callback_success_writes_output_file_witness :
    (pyUrlparse "/callback?code=abc123").path = "/callback" ∧
    extractResult wData = Except.ok wResult ∧
    (do_GET wCfg worldOk "/callback?code=abc123").events.filter isFileWriteEv =
      [Event.fileWrite wCfg.outputFile (pyJsonDump (PyVal.pdict wResult.entries) 0)] ∧
    pyJsonDump (PyVal.pdict wResult.entries) 0 =
      "\x7b\n  \"id\": 1,\n  \"slug\": \"\",\n  \"name\": \"x\",\n  \"client_id\": \"c\",\n  \"client_secret\": \"s\",\n  \"pem\": \"p\",\n  \"webhook_secret\": \"\",\n  \"owner\": \"\",\n  \"html_url\": \"\"\n\x7d" :=
  ⟨rfl, rfl,
    (callback_success_writes_output_file wCfg worldOk "/callback?code=abc123" "abc123"
      wData wResult rfl rfl (by decide) rfl rfl).1,
    rfl⟩

/-- C2: a GET of `/callback` whose query string carries no code parameter
responds 400 with the plain-text body `No code received`, performs no
exchange call, writes no file, raises nothing, and the server keeps
handling subsequent requests. -/
theorem callback_without_code_responds_400 (cfg : Config)
    (world : ExchangeRequest → FetchResult) (raw : String)
    (hpath : (pyUrlparse raw).path = "/callback")
    (hnone : ∀ p ∈ parse_qsl (pyUrlparse raw).query, p.1 ≠ "code") :
    (do_GET cfg world raw).events =
      [Event.sendResponse 400, Event.endHeaders, Event.writeBody "No code received"] ∧
    (do_GET cfg world raw).exn = Option.none ∧
    (do_GET cfg world raw).events.filter isExchangeEv = [] ∧
    (do_GET cfg world raw).events.filter isFileWriteEv = [] ∧
    (∀ rest, runServer cfg world (raw :: rest) =
      do_GET cfg world raw :: runServer cfg world rest) := by
  have hl : alookup (parse_qs (pyUrlparse raw).query) "code" = Option.none :=
    parse_qs_alookup_none _ _ hnone
  have hdo : do_GET cfg world raw = callbackNoCode := by
    rw [do_GET_callback_eq cfg world raw hpath]
    exact handleCallback_nocode_eq cfg world _ (by rw [hl]; rfl)
  have hmem : Event.spawnShutdownThread ∉ (do_GET cfg world raw).events := by
    rw [hdo]; decide
  exact ⟨by rw [hdo]; rfl, by rw [hdo]; rfl, by rw [hdo]; rfl, by rw [hdo]; rfl,
    fun rest => runServer_cons_continue cfg world raw rest hmem⟩

/-- Witness for C2: a bare `/callback` request against the scenario
configuration yields the 400 outcome and the server handles the next
request. -/
theorem callback_without_code_responds_400_witness :
    (pyUrlparse "/callback").path = "/callback" ∧
    (do_GET wCfg worldOk "/callback").events =
      [Event.sendResponse 400, Event.endHeaders, Event.writeBody "No code received"] ∧
    runServer wCfg worldOk ["/callback", "/callback"] =
      do_GET wCfg worldOk "/callback" :: runServer wCfg worldOk ["/callback"] :=
  have h := callback_without_code_responds_400 wCfg worldOk "/callback" rfl (by decide)
  ⟨rfl, h.1, h.2.2.2.2 ["/callback"]⟩

/-- C3: a callback with a truthy code whose exchange call raises (network
error or JSON parse failure) responds 500 with a body carrying the failure
detail, writes no file, raises nothing, never schedules shutdown, and the
server keeps handling subsequent requests. -/
theorem callback_exchange_failure_responds_500 (cfg : Config)
    (world : ExchangeRequest → FetchResult) (raw code e : String)
    (hpath : (pyUrlparse raw).path = "/callback")
    (hcode : (alookup (parse_qs (pyUrlparse raw).query) "code").bind List.head? =
      Option.some code)
    (hne : code ≠ "")
    (hworld : world (mkExchangeRequest code) = FetchResult.exn e) :
    (do_GET cfg world raw).events =
      [Event.exchangeCall (mkExchangeRequest code), Event.sendResponse 500,
       Event.endHeaders, Event.writeBody ("Error exchanging code: " ++ e)] ∧
    (do_GET cfg world raw).exn = Option.none ∧
    (do_GET cfg world raw).events.filter isFileWriteEv = [] ∧
    Event.spawnShutdownThread ∉ (do_GET cfg world raw).events ∧
    (∀ rest, runServer cfg world (raw :: rest) =
      do_GET cfg world raw :: runServer cfg world rest) := by
  have hdo : do_GET cfg world raw =
      { events := [Event.exchangeCall (mkExchangeRequest code), Event.sendResponse 500,
                   Event.endHeaders, Event.writeBody ("Error exchanging code: " ++ e)]
      , exn := Option.none } := by
    rw [do_GET_callback_eq cfg world raw hpath,
      handleCallback_code_eq cfg world _ code hcode hne]
    simp [doExchange, hworld]
  have hmem : Event.spawnShutdownThread ∉ (do_GET cfg world raw).events := by
    rw [hdo]; simp
  exact ⟨by rw [hdo], by rw [hdo], by rw [hdo]; rfl, hmem,
    fun rest => runServer_cons_continue cfg world raw rest hmem⟩

/-- Witness for C3: `/callback?code=abc123` against a raising exchange
world yields the 500 outcome with the detail in the body, and the server
handles the next request. -/
theorem callback_exchange_failure_responds_500_witness :
    worldErr (mkExchangeRequest "abc123") = FetchResult.exn "boom" ∧
    (do_GET wCfg worldErr "/callback?code=abc123").events =
      [Event.exchangeCall (mkExchangeRequest "abc123"), Event.sendResponse 500,
       Event.endHeaders, Event.writeBody ("Error exchanging code: " ++ "boom")] ∧
    runServer wCfg worldErr ["/callback?code=abc123", "/callback?code=abc123"] =
      do_GET wCfg worldErr "/callback?code=abc123" ::
        runServer wCfg worldErr ["/callback?code=abc123"] :=
  have h := callback_exchange_failure_responds_500 wCfg worldErr "/callback?code=abc123"
    "abc123" "boom" rfl rfl (by decide) rfl
  ⟨rfl, h.1, h.2.2.2.2 ["/callback?code=abc123"]⟩

/-- C4: a callback whose exchange response parses but lacks a required
field (id, name, client_id, client_secret or pem) makes the handler raise
an uncaught exception: the only event is the exchange call itself, no
response of any status is sent, no file is written, and the outcome records
the uncaught error. -/
theorem callback_missing_required_field_uncaught (cfg : Config)
    (world : ExchangeRequest → FetchResult) (raw code : String) (data : PyVal)
    (hpath : (pyUrlparse raw).path = "/callback")
    (hcode : (alookup (parse_qs (pyUrlparse raw).query) "code").bind List.head? =
      Option.some code)
    (hne : code ≠ "")
    (hworld : world (mkExchangeRequest code) = FetchResult.json data)
    (hmiss : pyLookup data "id" = Option.none ∨ pyLookup data "name" = Option.none ∨
      pyLookup data "client_id" = Option.none ∨
      pyLookup data "client_secret" = Option.none ∨
      pyLookup data "pem" = Option.none) :
    ∃ e, extractResult data = Except.error e ∧
      (do_GET cfg world raw).events = [Event.exchangeCall (mkExchangeRequest code)] ∧
      (do_GET cfg world raw).exn = Option.some e ∧
      (∀ s, Event.sendResponse s ∉ (do_GET cfg world raw).events) ∧
      (do_GET cfg world raw).events.filter isFileWriteEv = [] := by
  obtain ⟨e, he⟩ := extractResult_error_of_required_missing data hmiss
  have hdo : do_GET cfg world raw =
      { events := [Event.exchangeCall (mkExchangeRequest code)], exn := Option.some e } := by
    rw [do_GET_callback_eq cfg world raw hpath,
      handleCallback_code_eq cfg world _ code hcode hne]
    simp [doExchange, hworld, he]
  exact ⟨e, he, by rw [hdo], by rw [hdo], fun s => by rw [hdo]; simp, by rw [hdo]; rfl⟩

/-- Witness for C4: a response with only an `id` field makes the handler
abort after the exchange call, with a `KeyError` on `name` and no response
events. -/
theorem callback_missing_required_field_uncaught_witness :
    pyLookup wDataMissing "name" = Option.none ∧
    extractResult wDataMissing = Except.error ("KeyError: " ++ "name") ∧
    (do_GET wCfg (fun _ => FetchResult.json wDataMissing) "/callback?code=abc123").events =
      [Event.exchangeCall (mkExchangeRequest "abc123")] ∧
    (do_GET wCfg (fun _ => FetchResult.json wDataMissing) "/callback?code=abc123").exn =
      Option.some ("KeyError: " ++ "name") := by
  have h := callback_missing_required_field_uncaught wCfg
    (fun _ => FetchResult.json wDataMissing) "/callback?code=abc123" "abc123" wDataMissing
    rfl rfl (by decide) rfl (Or.inr (Or.inl rfl))
  obtain ⟨e, he, hev, hexn, _, _⟩ := h
  have rfl0 : extractResult wDataMissing = Except.error ("KeyError: " ++ "name") := rfl
  have h2 := rfl0.symm.trans he
  injection h2 with hee
  exact ⟨rfl, rfl0, hev, by rw [hexn, ← hee]⟩

/-- C5: every GET of the root path, for every configured organization and
manifest, responds 200 with content-type text/html and a body that embeds
the organization inside `organizations/<org>/settings/apps/new` and the
manifest, escaped by replacing `&` with `&amp;` and then `"` with `&quot;`,
as the hidden input value. -/
theorem root_serves_form_page (cfg : Config) (world : ExchangeRequest → FetchResult)
    (raw : String) (hpath : (pyUrlparse raw).path = "/") :
    (do_GET cfg world raw).events =
      [Event.sendResponse 200, Event.sendHeader "Content-Type" "text/html",
       Event.endHeaders,
       Event.writeBody (rootHtml cfg.org (escapeManifest cfg.manifest))] ∧
    (do_GET cfg world raw).exn = Option.none ∧
    (∃ pre post, rootHtml cfg.org (escapeManifest cfg.manifest) =
      pre ++ ("organizations/" ++ cfg.org ++ "/settings/apps/new") ++ post) ∧
    (∃ pre post, rootHtml cfg.org (escapeManifest cfg.manifest) =
      pre ++ ("value=\"" ++ escapeManifest cfg.manifest ++ "\">") ++ post) := by
  have hdo := do_GET_root_eq cfg world raw hpath
  refine ⟨by rw [hdo], by rw [hdo], ?_, ?_⟩
  · refine ⟨rootHtmlA, rootHtmlB ++ "value=\"" ++ escapeManifest cfg.manifest ++ "\">" ++
      rootHtmlC, ?_⟩
    simp only [rootHtml, string_append_assoc]
  · refine ⟨rootHtmlA ++ "organizations/" ++ cfg.org ++ "/settings/apps/new" ++ rootHtmlB,
      rootHtmlC, ?_⟩
    simp only [rootHtml, string_append_assoc]

/-- Witness for C5 at the scenario configuration: the body of `/` contains
`organizations/acme/settings/apps/new` and the escaped manifest. -/
theorem root_serves_form_page_witness :
    (pyUrlparse "/").path = "/" ∧
    (do_GET wCfg worldOk "/").events =
      [Event.sendResponse 200, Event.sendHeader "Content-Type" "text/html",
       Event.endHeaders,
       Event.writeBody (rootHtml wCfg.org (escapeManifest wCfg.manifest))] ∧
    (∃ pre post, rootHtml wCfg.org (escapeManifest wCfg.manifest) =
      pre ++ ("organizations/" ++ wCfg.org ++ "/settings/apps/new") ++ post) ∧
    escapeManifest wCfg.manifest = "\x7b&quot;name&quot;:&quot;x&quot;\x7d" :=
  have h := root_serves_form_page wCfg worldOk "/" rfl
  ⟨rfl, h.1, h.2.2.1, rfl⟩

/-- C6: for every callback request with a truthy code, exactly one exchange
call is made, a POST to `https://api.github.com/app-manifests/<code>/conversions`
with an `Accept: application/vnd.github+json` header and an empty body. -/
theorem callback_exchange_request_shape (cfg : Config)
    (world : ExchangeRequest → FetchResult) (raw code : String)
    (hpath : (pyUrlparse raw).path = "/callback")
    (hcode : (alookup (parse_qs (pyUrlparse raw).query) "code").bind List.head? =
      Option.some code)
    (hne : code ≠ "") :
    (do_GET cfg world raw).events.filter isExchangeEv =
      [Event.exchangeCall
        { url := "https://api.github.com/app-manifests/" ++ code ++ "/conversions"
        , method := "POST"
        , headers := [("Accept", "application/vnd.github+json")]
        , data := "" }] := by
  rw [do_GET_callback_eq cfg world raw hpath,
    handleCallback_code_eq cfg world _ code hcode hne]
  exact doExchange_exchange_filter cfg world code

/-- Witness for C6 at the scenario callback. -/
theorem callback_exchange_request_shape_witness :
    (alookup (parse_qs (pyUrlparse "/callback?code=abc123").query) "code").bind
      List.head? = Option.some "abc123" ∧
    (do_GET wCfg worldOk "/callback?code=abc123").events.filter isExchangeEv =
      [Event.exchangeCall
        { url := "https://api.github.com/app-manifests/" ++ "abc123" ++ "/conversions"
        , method := "POST"
        , headers := [("Accept", "application/vnd.github+json")]
        , data := "" }] :=
  ⟨rfl, callback_exchange_request_shape wCfg worldOk "/callback?code=abc123" "abc123"
    rfl rfl (by decide)⟩

/-- C7: a GET whose parsed path is neither the root nor the callback path
responds 404 with no body, performs no exchange call, writes no file,
schedules no shutdown, raises nothing, and the server keeps handling
subsequent requests. -/
theorem unknown_path_responds_404 (cfg : Config)
    (world : ExchangeRequest → FetchResult) (raw : String)
    (h1 : (pyUrlparse raw).path ≠ "/") (h2 : (pyUrlparse raw).path ≠ "/callback") :
    (do_GET cfg world raw).events = [Event.sendResponse 404, Event.endHeaders] ∧
    (do_GET cfg world raw).exn = Option.none ∧
    (∀ b, Event.writeBody b ∉ (do_GET cfg world raw).events) ∧
    (do_GET cfg world raw).events.filter isExchangeEv = [] ∧
    (do_GET cfg world raw).events.filter isFileWriteEv = [] ∧
    Event.spawnShutdownThread ∉ (do_GET cfg world raw).events ∧
    (∀ rest, runServer cfg world (raw :: rest) =
      do_GET cfg world raw :: runServer cfg world rest) := by
  have hdo := do_GET_notfound_eq cfg world raw h1 h2
  have hmem : Event.spawnShutdownThread ∉ (do_GET cfg world raw).events := by
    rw [hdo]; decide
  exact ⟨by rw [hdo], by rw [hdo], fun b => by rw [hdo]; simp, by rw [hdo]; rfl,
    by rw [hdo]; rfl, hmem, fun rest => runServer_cons_continue cfg world raw rest hmem⟩

/-- Witness for C7 on `/nope`: the 404 outcome with empty body and a still
listening server. -/
theorem unknown_path_responds_404_witness :
    (pyUrlparse "/nope").path = "/nope" ∧
    (do_GET wCfg worldOk "/nope").events = [Event.sendResponse 404, Event.endHeaders] ∧
    runServer wCfg worldOk ["/nope", "/nope"] =
      do_GET wCfg worldOk "/nope" :: runServer wCfg worldOk ["/nope"] :=
  have h := unknown_path_responds_404 wCfg worldOk "/nope" (by decide) (by decide)
  ⟨rfl, h.1, h.2.2.2.2.2.2 ["/nope"]⟩

/-- C8: shutdown is scheduled (a thread spawned) exactly on the success
path: when it happens, it is the last event of the trace, strictly after
the 200 response and the confirmation-body write, and the server loop
accepts no further request; it never happens on a trace carrying a 400,
500 or 404 response; and whenever it is absent the server keeps handling
subsequent requests. -/
theorem success_shutdown_scheduling (cfg : Config)
    (world : ExchangeRequest → FetchResult) (raw : String) :
    (Event.spawnShutdownThread ∈ (do_GET cfg world raw).events →
      (∃ pre, (do_GET cfg world raw).events = pre ++ [Event.spawnShutdownThread] ∧
        Event.sendResponse 200 ∈ pre ∧ ∃ b, Event.writeBody b ∈ pre) ∧
      (∀ rest, runServer cfg world (raw :: rest) = [do_GET cfg world raw])) ∧
    ((Event.sendResponse 400 ∈ (do_GET cfg world raw).events ∨
      Event.sendResponse 500 ∈ (do_GET cfg world raw).events ∨
      Event.sendResponse 404 ∈ (do_GET cfg world raw).events) →
      Event.spawnShutdownThread ∉ (do_GET cfg world raw).events) ∧
    (Event.spawnShutdownThread ∉ (do_GET cfg world raw).events →
      ∀ rest, runServer cfg world (raw :: rest) =
        do_GET cfg world raw :: runServer cfg world rest) := by
  have key : (∃ code result, do_GET cfg world raw =
      { events := [Event.exchangeCall (mkExchangeRequest code),
                   Event.fileWrite cfg.outputFile (pyJsonDump (PyVal.pdict result.entries) 0),
                   Event.sendResponse 200, Event.sendHeader "Content-Type" "text/html",
                   Event.endHeaders, Event.writeBody (successHtml result),
                   Event.spawnShutdownThread], exn := Option.none }) ∨
      Event.spawnShutdownThread ∉ (do_GET cfg world raw).events := by
    by_cases hr : (pyUrlparse raw).path = "/"
    · right; rw [do_GET_root_eq cfg world raw hr]; simp
    by_cases hcb : (pyUrlparse raw).path = "/callback"
    · rw [do_GET_callback_eq cfg world raw hcb]
      cases hc : (alookup (parse_qs (pyUrlparse raw).query) "code").bind List.head? with
      | none => right; rw [handleCallback_nocode_eq cfg world _ hc]; decide
      | some code =>
        by_cases hne : code = ""
        · right
          have hx : handleCallback cfg world (parse_qs (pyUrlparse raw).query) =
              callbackNoCode := by simp [handleCallback, hc, hne]
          rw [hx]; decide
        · rw [handleCallback_code_eq cfg world _ code hc hne]
          cases hw : world (mkExchangeRequest code) with
          | exn e => right; simp [doExchange, hw]
          | json data =>
            cases he : extractResult data with
            | error e => right; simp [doExchange, hw, he]
            | ok result => exact Or.inl ⟨code, result, by simp [doExchange, hw, he]⟩
    · right; rw [do_GET_notfound_eq cfg world raw hr hcb]; decide
  rcases key with ⟨code, result, hdo⟩ | hnot
  · have hmem : Event.spawnShutdownThread ∈ (do_GET cfg world raw).events := by
      rw [hdo]; simp
    refine ⟨fun _ => ⟨⟨[Event.exchangeCall (mkExchangeRequest code),
        Event.fileWrite cfg.outputFile (pyJsonDump (PyVal.pdict result.entries) 0),
        Event.sendResponse 200, Event.sendHeader "Content-Type" "text/html",
        Event.endHeaders, Event.writeBody (successHtml result)],
        by rw [hdo]; rfl, by simp, ⟨successHtml result, by simp⟩⟩,
      fun rest => runServer_cons_stop cfg world raw rest hmem⟩, ?_, ?_⟩
    · intro h
      exfalso
      rcases h with h | h | h <;> (rw [hdo] at h; simp at h)
    · intro hn
      exact absurd hmem hn
  · exact ⟨fun hmem => absurd hmem hnot, fun _ => hnot,
      fun _ rest => runServer_cons_continue cfg world raw rest hnot⟩

/-- Witness for C8 at the scenario success callback: shutdown is the last
event, after the 200 response and the body write, and the server accepts
no further request. -/
theorem success_shutdown_scheduling_witness :
    Event.spawnShutdownThread ∈ (do_GET wCfg worldOk "/callback?code=abc123").events ∧
    (∃ pre, (do_GET wCfg worldOk "/callback?code=abc123").events =
        pre ++ [Event.spawnShutdownThread] ∧
      Event.sendResponse 200 ∈ pre ∧ ∃ b, Event.writeBody b ∈ pre) ∧
    runServer wCfg worldOk ["/callback?code=abc123", "/"] =
      [do_GET wCfg worldOk "/callback?code=abc123"] := by
  have h := success_shutdown_scheduling wCfg worldOk "/callback?code=abc123"
  have hmem : Event.spawnShutdownThread ∈
      (do_GET wCfg worldOk "/callback?code=abc123").events := by decide
  exact ⟨hmem, (h.1 hmem).1, (h.1 hmem).2 ["/"]⟩

/-- C9: a callback whose query string carries a `code` parameter only with
an empty raw value (such as `/callback?code=`) is treated exactly like a
request with no code parameter: `parse_qs` drops blank values, so the
handler returns 400, makes no exchange call, writes no file, and the
outcome equals that of a bare `/callback` request. -/
theorem callback_blank_code_like_missing (cfg : Config)
    (world : ExchangeRequest → FetchResult) (raw : String)
    (hpath : (pyUrlparse raw).path = "/callback")
    (hpresent : ∃ nv ∈ splitOnChar '&' (pyUrlparse raw).query.toList,
      ∃ n, chunkSplit nv = Option.some (n, Option.some []) ∧
        (unquotePlusL n).asString = "code")
    (hall : ∀ nv ∈ splitOnChar '&' (pyUrlparse raw).query.toList,
      ∀ n v, chunkSplit nv = Option.some (n, v) →
        (unquotePlusL n).asString = "code" → v = Option.none ∨ v = Option.some []) :
    (do_GET cfg world raw).events =
      [Event.sendResponse 400, Event.endHeaders, Event.writeBody "No code received"] ∧
    (do_GET cfg world raw).events.filter isExchangeEv = [] ∧
    (do_GET cfg world raw).events.filter isFileWriteEv = [] ∧
    do_GET cfg world raw = do_GET cfg world "/callback" := by
  have hnone : ∀ p ∈ parse_qsl (pyUrlparse raw).query, p.1 ≠ "code" :=
    parse_qsl_no_code_of_blank _ hall
  have hl : alookup (parse_qs (pyUrlparse raw).query) "code" = Option.none :=
    parse_qs_alookup_none _ _ hnone
  have hdo : do_GET cfg world raw = callbackNoCode := by
    rw [do_GET_callback_eq cfg world raw hpath]
    exact handleCallback_nocode_eq cfg world _ (by rw [hl]; rfl)
  exact ⟨by rw [hdo]; rfl, by rw [hdo]; rfl, by rw [hdo]; rfl, by rw [hdo]; rfl⟩

/-- Witness for C9 on `/callback?code=`: the blank-valued code chunk is
present, every code chunk is blank, and the outcome is the 400 of a
codeless callback. -/
theorem callback_blank_code_like_missing_witness :
    (pyUrlparse "/callback?code=").path = "/callback" ∧
    (do_GET wCfg worldOk "/callback?code=").events =
      [Event.sendResponse 400, Event.endHeaders, Event.writeBody "No code received"] ∧
    do_GET wCfg worldOk "/callback?code=" = do_GET wCfg worldOk "/callback" := by
  have hchunks : splitOnChar '&' (pyUrlparse "/callback?code=").query.toList =
      [['c', 'o', 'd', 'e', '=']] := rfl
  have h := callback_blank_code_like_missing wCfg worldOk "/callback?code=" rfl
    ⟨['c', 'o', 'd', 'e', '='], by rw [hchunks]; exact List.mem_singleton.mpr rfl,
      ['c', 'o', 'd', 'e'], rfl, rfl⟩
    (by
      intro nv hmem n v hs hn
      rw [hchunks, List.mem_singleton] at hmem
      subst hmem
      have hs0 : chunkSplit ['c', 'o', 'd', 'e', '='] =
          Option.some (['c', 'o', 'd', 'e'], Option.some []) := rfl
      rw [hs0] at hs
      injection hs with hs1
      exact Or.inr (congrArg Prod.snd hs1).symm)
  exact ⟨rfl, h.1, h.2.2.2⟩

/-- C10: when the query string carries several code parameters, the
exchange uses exactly the first value in query-string order, ignoring the
rest, and that value is interpolated into the outbound URL verbatim. -/
theorem callback_multiple_codes_first_used (cfg : Config)
    (world : ExchangeRequest → FetchResult) (raw c : String) (cs : List String)
    (hpath : (pyUrlparse raw).path = "/callback")
    (hvals : valuesOf (parse_qsl (pyUrlparse raw).query) "code" = c :: cs)
    (hne : c ≠ "") :
    (do_GET cfg world raw).events.filter isExchangeEv =
      [Event.exchangeCall (mkExchangeRequest c)] ∧
    (mkExchangeRequest c).url =
      "https://api.github.com/app-manifests/" ++ c ++ "/conversions" := by
  have hl : alookup (parse_qs (pyUrlparse raw).query) "code" = Option.some (c :: cs) := by
    rw [parse_qs_alookup, hvals]
  have hcode : (alookup (parse_qs (pyUrlparse raw).query) "code").bind List.head? =
      Option.some c := by rw [hl]; rfl
  refine ⟨?_, rfl⟩
  rw [do_GET_callback_eq cfg world raw hpath,
    handleCallback_code_eq cfg world _ c hcode hne]
  exact doExchange_exchange_filter cfg world c

/-- Witness for C10 on `/callback?code=a&code=b`: both values are parsed in
order and the exchange uses `a`. -/
theorem callback_multiple_codes_first_used_witness :
    valuesOf (parse_qsl (pyUrlparse "/callback?code=a&code=b").query) "code" =
      ["a", "b"] ∧
    (do_GET wCfg worldOk "/callback?code=a&code=b").events.filter isExchangeEv =
      [Event.exchangeCall (mkExchangeRequest "a")] :=
  ⟨rfl, (callback_multiple_codes_first_used wCfg worldOk "/callback?code=a&code=b" "a"
    ["b"] rfl rfl (by decide)).1⟩
